import Mathlib

/-
Verification development for the rercon RCON client library.

The definitions below are a shallow embedding of the repository sources:
  - src/packet.rs      : wire codec (Packet, send_internal, read)
  - src/connection.rs  : correlation engine (next_counter, exec,
                         receive_response, try_connect)
  - src/reconnect.rs   : reconnecting supervisor (exec, start_reconnect,
                         reconnect_loop, close)

Machine integers (i32) are modelled as Int with explicit two-complement
encoding at the wire boundary; byte strings are List Nat (each element a
byte value); Rust String values are carried as their UTF-8 byte lists,
which is faithful because String::from_utf8 and as_bytes are mutually
inverse bijections between valid UTF-8 byte vectors and strings, and
String concatenation corresponds to byte concatenation.
-/

namespace Rercon

/-! ## Wire-level integers (byteorder little-endian i32) -/

/-- Little-endian encoding of an i32 value, as written by
write_i32 LittleEndian in packet.rs: the two-complement bit pattern of
the integer split into four bytes, least significant first. -/
def toLEi32 (i : Int) : List Nat :=
  [(i % 4294967296).toNat % 256,
   (i % 4294967296).toNat / 256 % 256,
   (i % 4294967296).toNat / 65536 % 256,
   (i % 4294967296).toNat / 16777216 % 256]

/-- Little-endian decoding of an i32 value from the first four bytes of a
buffer, as performed by read_i32 LittleEndian in packet.rs: reassemble the
unsigned 32-bit value and reinterpret it as a signed two-complement
integer. -/
def fromLEi32 (bs : List Nat) : Int :=
  match bs with
  | b0 :: b1 :: b2 :: b3 :: _ =>
    let n : Nat := b0 + 256 * b1 + 65536 * b2 + 16777216 * b3
    if n < 2147483648 then (n : Int) else (n : Int) - 4294967296
  | _ => 0

theorem fromLEi32_toLEi32 (i : Int) (h1 : -2147483648 ≤ i) (h2 : i < 2147483648) :
    fromLEi32 (toLEi32 i) = i := by
  simp only [toLEi32, fromLEi32]
  split <;> omega

theorem toLEi32_length (i : Int) : (toLEi32 i).length = 4 := rfl

/-! ## UTF-8 validity (the contract of String::from_utf8) -/

/-- A UTF-8 continuation byte: 0x80 to 0xBF. -/
def utf8Cont (b : Nat) : Bool := 128 ≤ b && b ≤ 191

/-- Validity of a byte list as UTF-8, the success condition of
String::from_utf8 in Packet::read. Standard UTF-8 shortest-form coding
with the surrogate range excluded. -/
def utf8Valid : List Nat → Bool
  | [] => true
  | b :: rest =>
    if b ≤ 127 then utf8Valid rest
    else if 194 ≤ b && b ≤ 223 then
      match rest with
      | c1 :: r => utf8Cont c1 && utf8Valid r
      | [] => false
    else if b = 224 then
      match rest with
      | c1 :: c2 :: r => (160 ≤ c1 && c1 ≤ 191) && utf8Cont c2 && utf8Valid r
      | _ => false
    else if 225 ≤ b && b ≤ 236 then
      match rest with
      | c1 :: c2 :: r => utf8Cont c1 && utf8Cont c2 && utf8Valid r
      | _ => false
    else if b = 237 then
      match rest with
      | c1 :: c2 :: r => (128 ≤ c1 && c1 ≤ 159) && utf8Cont c2 && utf8Valid r
      | _ => false
    else if 238 ≤ b && b ≤ 239 then
      match rest with
      | c1 :: c2 :: r => utf8Cont c1 && utf8Cont c2 && utf8Valid r
      | _ => false
    else if b = 240 then
      match rest with
      | c1 :: c2 :: c3 :: r => (144 ≤ c1 && c1 ≤ 191) && utf8Cont c2 && utf8Cont c3 && utf8Valid r
      | _ => false
    else if 241 ≤ b && b ≤ 243 then
      match rest with
      | c1 :: c2 :: c3 :: r => utf8Cont c1 && utf8Cont c2 && utf8Cont c3 && utf8Valid r
      | _ => false
    else if b = 244 then
      match rest with
      | c1 :: c2 :: c3 :: r => (128 ≤ c1 && c1 ≤ 143) && utf8Cont c2 && utf8Cont c3 && utf8Valid r
      | _ => false
    else false

/-! ## Packet and error model (src/packet.rs, src/error.rs) -/

/-- Packet type constants from packet.rs. TYPE_EXEC and TYPE_AUTH_RESPONSE
share the value 2 by protocol design. -/
def TYPE_AUTH : Int := 3

def TYPE_EXEC : Int := 2

def TYPE_RESPONSE : Int := 0

def TYPE_AUTH_RESPONSE : Int := 2

/-- The Packet struct of packet.rs. The body field holds the UTF-8 bytes
of the Rust String. -/
structure Packet where
  id : Int
  packet_type : Int
  body : List Nat
deriving DecidableEq

/-- Model of std io Error: its kind together with its message text. -/
structure IoError where
  kind : String
  msg : String
deriving DecidableEq

/-- The RconError enum of src/error.rs. The io variant carries the
underlying io Error; AddressParse carries its text. -/
inductive RconError where
  | AddressParse (m : String)
  | io (e : IoError)
  | CommandTooLong
  | UTFEncoding
  | UnexpectedPacket
  | PasswordIncorrect
  | BusyReconnecting (reason : String)
deriving DecidableEq

/-- The to_string of an RconError (Display delegates to the derived Debug
representation in error.rs). The exact text of the io case abstracts the
Debug format of std io Error; the claims depend only on describe being a
function of the error value. -/
def RconError.describe : RconError → String
  | .AddressParse m => "AddressParse(" ++ m ++ ")"
  | .io e => "IO(" ++ e.kind ++ ", " ++ e.msg ++ ")"
  | .CommandTooLong => "CommandTooLong"
  | .UTFEncoding => "UTFEncoding"
  | .UnexpectedPacket => "UnexpectedPacket"
  | .PasswordIncorrect => "PasswordIncorrect"
  | .BusyReconnecting r => "BusyReconnecting(" ++ r ++ ")"

/-! ## Codec (Packet::send_internal and Packet::read, src/packet.rs) -/

/-- Packet::send_internal: refuse bodies over 1014 bytes with
CommandTooLong before writing anything, otherwise write the length prefix
(body length + 10), the id, the type, the body and two NUL bytes. The ok
value is the exact byte sequence written to the stream, in order. -/
def sendInternal (p : Packet) : Except RconError (List Nat) :=
  if p.body.length > 1014 then .error .CommandTooLong
  else .ok (toLEi32 ((p.body.length : Int) + 10) ++ toLEi32 p.id ++
            toLEi32 p.packet_type ++ p.body ++ [0, 0])

/-- The bytes send_internal puts on the transport: the encoded buffer on
success, nothing when it fails (the length check precedes every write). -/
def bytesWritten (p : Packet) : List Nat :=
  match sendInternal p with
  | .ok bs => bs
  | .error _ => []

/-- Outcome of Packet::read. A Rust panic from an out-of-range slice index
(which read does not guard against) is modelled as the panic case; a
String::from_utf8 failure maps to utf8Error (RconError::UTFEncoding). -/
inductive DecodeResult where
  | ok (p : Packet)
  | utf8Error
  | panic
deriving DecidableEq

/-- The body of Packet::read after the length prefix has been read:
given len and the buffer of bytes read off the stream, take the id from
bytes 0..4, the type from bytes 4..8 and the body from bytes 8..(len-2),
validating only the body as UTF-8. The two trailing bytes are never
inspected. The guard records exactly when the three slice indexings are
in range (otherwise Rust panics). -/
def decodeBody (len : Int) (buf : List Nat) : DecodeResult :=
  if 10 ≤ len ∧ (len - 2).toNat ≤ buf.length then
    if utf8Valid ((buf.drop 8).take ((len - 2).toNat - 8)) then
      .ok ⟨fromLEi32 (buf.take 4), fromLEi32 ((buf.drop 4).take 4),
           (buf.drop 8).take ((len - 2).toNat - 8)⟩
    else .utf8Error
  else .panic

/-- Packet::read over a byte stream: read the 4-byte little-endian length
prefix, take that many following bytes, and decode them. -/
def readPacket (stream : List Nat) : DecodeResult :=
  if 4 ≤ stream.length then
    decodeBody (fromLEi32 (stream.take 4)) ((stream.drop 4).take (fromLEi32 (stream.take 4)).toNat)
  else .panic

/-! ## Codec helper lemmas -/

/-- Decoding a buffer that splits as a prefix of at least eight bytes plus
two trailing bytes: the trailing bytes are not inspected. -/
lemma decodeBody_split (len : Int) (pre : List Nat) (t1 t2 : Nat)
    (hlen : 10 ≤ len) (hpre : pre.length + 2 = len.toNat)
    (hv : utf8Valid (pre.drop 8) = true) :
    decodeBody len (pre ++ [t1, t2]) =
      .ok ⟨fromLEi32 (pre.take 4), fromLEi32 ((pre.drop 4).take 4), pre.drop 8⟩ := by
  have h8 : 8 ≤ pre.length := by omega
  have hbuflen : (pre ++ [t1, t2]).length = pre.length + 2 := by simp
  have h40 : 4 - pre.length = 0 := by omega
  have h80 : 8 - pre.length = 0 := by omega
  have htake4 : (pre ++ [t1, t2]).take 4 = pre.take 4 := by
    rw [List.take_append_eq_append_take, h40]
    simp
  have hdrop4 : (pre ++ [t1, t2]).drop 4 = pre.drop 4 ++ [t1, t2] := by
    rw [List.drop_append_eq_append_drop, h40, List.drop_zero]
  have hdrop8 : (pre ++ [t1, t2]).drop 8 = pre.drop 8 ++ [t1, t2] := by
    rw [List.drop_append_eq_append_drop, h80, List.drop_zero]
  have htake4d : (pre.drop 4 ++ [t1, t2]).take 4 = (pre.drop 4).take 4 := by
    rw [List.take_append_eq_append_take]
    have hz : 4 - (pre.drop 4).length = 0 := by
      simp only [List.length_drop]
      omega
    rw [hz]
    simp
  have hbody : (pre.drop 8 ++ [t1, t2]).take ((len - 2).toNat - 8) = pre.drop 8 := by
    apply List.take_left'
    simp only [List.length_drop]
    omega
  unfold decodeBody
  rw [if_pos ⟨hlen, by rw [hbuflen]; omega⟩, hdrop8, hbody, hv, if_pos rfl, htake4,
      hdrop4, htake4d]

/-- next_counter from src/connection.rs: counter.checked_add(1) yields
None exactly when counter is i32::MAX, in which case the counter restarts
at 1; otherwise it is the ordinary successor. -/
def nextCounter (counter : Int) : Int :=
  if counter = 2147483647 then 1 else counter + 1

/-! ## Claim theorems: codec and counter -/

/-- C2: for every packet whose body is valid UTF-8 of at most 1014 bytes
and whose id and type are any i32 values, encoding succeeds and decoding
the encoded bytes returns the original packet. -/
theorem packet_roundtrip (p : Packet)
    (hid1 : -2147483648 ≤ p.id) (hid2 : p.id < 2147483648)
    (hk1 : -2147483648 ≤ p.packet_type) (hk2 : p.packet_type < 2147483648)
    (hb : p.body.length ≤ 1014) (hv : utf8Valid p.body = true) :
    sendInternal p = .ok (bytesWritten p) ∧ readPacket (bytesWritten p) = .ok p := by
  have hng : ¬ p.body.length > 1014 := by omega
  have hsend : sendInternal p = .ok (toLEi32 ((p.body.length : Int) + 10) ++ toLEi32 p.id ++
      toLEi32 p.packet_type ++ p.body ++ [0, 0]) := by
    unfold sendInternal
    rw [if_neg hng]
  have hbw : bytesWritten p = toLEi32 ((p.body.length : Int) + 10) ++ toLEi32 p.id ++
      toLEi32 p.packet_type ++ p.body ++ [0, 0] := by
    unfold bytesWritten
    rw [hsend]
  refine ⟨by rw [hsend, hbw], ?_⟩
  rw [hbw]
  have hregroup : toLEi32 ((p.body.length : Int) + 10) ++ toLEi32 p.id ++
      toLEi32 p.packet_type ++ p.body ++ [0, 0] =
      toLEi32 ((p.body.length : Int) + 10) ++
        ((toLEi32 p.id ++ toLEi32 p.packet_type ++ p.body) ++ [0, 0]) := by
    simp [List.append_assoc]
  rw [hregroup]
  have hlenfield : fromLEi32 (toLEi32 ((p.body.length : Int) + 10)) = (p.body.length : Int) + 10 :=
    fromLEi32_toLEi32 _ (by omega) (by omega)
  have hpre_len : (toLEi32 p.id ++ toLEi32 p.packet_type ++ p.body).length = p.body.length + 8 := by
    simp [toLEi32_length]
    omega
  have hrest_len : ((toLEi32 p.id ++ toLEi32 p.packet_type ++ p.body) ++ [0, 0]).length =
      p.body.length + 10 := by
    simp only [List.length_append, toLEi32_length, List.length_cons, List.length_nil]
    omega
  unfold readPacket
  rw [List.take_left' (toLEi32_length _), hlenfield,
      List.drop_left' (toLEi32_length _),
      if_pos (by simp only [List.length_append, toLEi32_length, List.length_cons,
        List.length_nil]; omega)]
  have htoNat : ((p.body.length : Int) + 10).toNat = p.body.length + 10 := by omega
  rw [htoNat, List.take_of_length_le (by rw [hrest_len])]
  have hpretake : (toLEi32 p.id ++ toLEi32 p.packet_type ++ p.body).take 4 = toLEi32 p.id := by
    rw [List.append_assoc, List.take_left' (toLEi32_length _)]
  have hpredrop : (toLEi32 p.id ++ toLEi32 p.packet_type ++ p.body).drop 4 =
      toLEi32 p.packet_type ++ p.body := by
    rw [List.append_assoc, List.drop_left' (toLEi32_length _)]
  have hpredrop8 : (toLEi32 p.id ++ toLEi32 p.packet_type ++ p.body).drop 8 = p.body := by
    rw [List.append_assoc, List.drop_append_eq_append_drop, toLEi32_length,
        List.drop_eq_nil_of_le (by rw [toLEi32_length]; omega), List.nil_append,
        List.drop_left' (toLEi32_length _)]
  rw [decodeBody_split _ _ _ _ (by omega) (by rw [hpre_len]; omega)
        (by rw [hpredrop8]; exact hv),
      hpretake, hpredrop, List.take_left' (toLEi32_length _), hpredrop8,
      fromLEi32_toLEi32 _ hid1 hid2, fromLEi32_toLEi32 _ hk1 hk2]

/-- C2 witness: the round trip evaluated at a concrete packet. -/
theorem packet_roundtrip_witness :
    sendInternal ⟨1, 0, [104, 105]⟩ = .ok (bytesWritten ⟨1, 0, [104, 105]⟩) ∧
    readPacket (bytesWritten ⟨1, 0, [104, 105]⟩) = .ok ⟨1, 0, [104, 105]⟩ :=
  packet_roundtrip ⟨1, 0, [104, 105]⟩ (by decide) (by decide) (by decide) (by decide)
    (by decide) (by decide)

/-- C8: a body of exactly 1014 bytes encodes successfully; a body of 1015
bytes or more fails with CommandTooLong, and in that case no byte reaches
the transport. -/
theorem command_length_boundary :
    (∀ p : Packet, p.body.length = 1014 → sendInternal p = .ok (bytesWritten p)) ∧
    (∀ p : Packet, 1015 ≤ p.body.length →
      sendInternal p = .error .CommandTooLong ∧ bytesWritten p = []) := by
  constructor
  · intro p hp
    have hng : ¬ p.body.length > 1014 := by omega
    have hsend : sendInternal p = .ok (toLEi32 ((p.body.length : Int) + 10) ++ toLEi32 p.id ++
        toLEi32 p.packet_type ++ p.body ++ [0, 0]) := by
      unfold sendInternal
      rw [if_neg hng]
    rw [hsend]
    unfold bytesWritten
    rw [hsend]
  · intro p hp
    have hsend : sendInternal p = .error .CommandTooLong := by
      unfold sendInternal
      rw [if_pos (by omega)]
    refine ⟨hsend, ?_⟩
    unfold bytesWritten
    rw [hsend]

set_option maxRecDepth 4000 in
/-- C8 witness: the boundary evaluated at bodies of 1014 and 1015 zero
bytes. -/
theorem command_length_boundary_witness :
    sendInternal ⟨1, 2, List.replicate 1014 0⟩ = .ok (bytesWritten ⟨1, 2, List.replicate 1014 0⟩) ∧
    sendInternal ⟨1, 2, List.replicate 1015 0⟩ = .error .CommandTooLong ∧
    bytesWritten ⟨1, 2, List.replicate 1015 0⟩ = [] :=
  ⟨command_length_boundary.1 ⟨1, 2, List.replicate 1014 0⟩ (by simp),
   (command_length_boundary.2 ⟨1, 2, List.replicate 1015 0⟩ (by simp)).1,
   (command_length_boundary.2 ⟨1, 2, List.replicate 1015 0⟩ (by simp)).2⟩

/-- C9: the counter successor maps i32::MAX to 1, and iterating it from
the initial counter 0 any positive number of times yields a strictly
positive value, never 0 or a negative. -/
theorem counter_wrap_positive :
    nextCounter 2147483647 = 1 ∧
    (∀ n : Nat, 1 ≤ n → 0 < nextCounter^[n] 0) := by
  have hstep : ∀ c : Int, 0 < c → 0 < nextCounter c := by
    intro c hc
    unfold nextCounter
    split <;> omega
  constructor
  · rfl
  · intro n hn
    induction n with
    | zero => omega
    | succ m ih =>
      rcases Nat.eq_zero_or_pos m with hm | hm
      · subst hm
        simp [nextCounter]
      · have hpos := ih hm
        rw [Function.iterate_succ_apply']
        exact hstep _ hpos

/-- C9 witness: the positivity statement evaluated after three
iterations. -/
theorem counter_wrap_positive_witness : 0 < nextCounter^[3] 0 :=
  counter_wrap_positive.2 3 (by decide)

/-- C10: for any declared length of at least 10 and a buffer of exactly
that many bytes whose bytes 8..(len-2) are valid UTF-8, decoding succeeds
and returns exactly those bytes as the body, whatever the two trailing
bytes are: the double-NUL terminator is never validated. -/
theorem decode_ignores_terminator (len : Int) (pre : List Nat) (t1 t2 : Nat)
    (hlen : 10 ≤ len) (hpre : pre.length + 2 = len.toNat)
    (hv : utf8Valid (pre.drop 8) = true) :
    decodeBody len (pre ++ [t1, t2]) =
      .ok ⟨fromLEi32 (pre.take 4), fromLEi32 ((pre.drop 4).take 4), pre.drop 8⟩ :=
  decodeBody_split len pre t1 t2 hlen hpre hv

/-- C10 witness: a frame whose trailing two bytes are 5 and 7 rather than
NUL NUL still decodes, and its body ignores them. -/
theorem decode_ignores_terminator_witness :
    decodeBody 12 ([1, 0, 0, 0, 0, 0, 0, 0, 104, 105] ++ [5, 7]) =
      .ok ⟨fromLEi32 ([1, 0, 0, 0, 0, 0, 0, 0, 104, 105].take 4),
           fromLEi32 (([1, 0, 0, 0, 0, 0, 0, 0, 104, 105].drop 4).take 4),
           [1, 0, 0, 0, 0, 0, 0, 0, 104, 105].drop 8⟩ :=
  decode_ignores_terminator 12 [1, 0, 0, 0, 0, 0, 0, 0, 104, 105] 5 7
    (by decide) (by decide) (by decide)

/-! ## Correlation engine (SingleConnection::exec and receive_response,
src/connection.rs)

The receiver task reads frames off the transport one at a time; its input
is modelled as the list of frames the server delivers, in arrival order.
The select against the shutdown signal is not exercised by any claim and
is omitted: an exhausted arrival list models a receiver still blocked in
its read. -/

/-- Outcome of receive_response over a finite arrival list. done is the
Ok branch after the terminator echo, err an error pushed to the caller,
waiting a receiver still blocked reading with no terminator seen. -/
inductive RecvOutcome where
  | done (result : List Nat)
  | err (e : RconError)
  | waiting
deriving DecidableEq

/-- The loop of receive_response from src/connection.rs. request_id is
the value the caller stored in the shared atomic before sending (constant
while one exec is outstanding); end_id starts at -1 and is set to
next_counter(request_id) when the first correlated frame arrives; result
accumulates the bodies of correlated RESPONSE frames; the frame whose id
equals end_id terminates the loop. Frames are checked in source order:
no active request, then id filter (tolerant skip), then packet type. -/
def receiveResponse (request_id end_id : Int) (result : List Nat) :
    List Packet → RecvOutcome
  | [] => .waiting
  | f :: rest =>
    if request_id ≤ 0 then receiveResponse request_id end_id result rest
    else if f.id ≠ request_id ∧ f.id ≠ end_id then receiveResponse request_id end_id result rest
    else if f.packet_type ≠ TYPE_RESPONSE then .err .UnexpectedPacket
    else
      if f.id = (if end_id = -1 then nextCounter request_id else end_id) then .done result
      else receiveResponse request_id
        (if end_id = -1 then nextCounter request_id else end_id) (result ++ f.body) rest

/-- Outcome of ReceiverHandle::wait_for_first_packet: the
received_first_response notification, an error handed through the result
channel, or still blocked. -/
inductive WaitFirst where
  | notified
  | errored (e : RconError)
  | blocked
deriving DecidableEq

/-- wait_for_first_packet as seen over the arrival list: the notification
fires at the first frame that passes the id filter with end_id still -1
and is a RESPONSE; a frame passing the filter with another type makes the
receiver push UnexpectedPacket, which the select returns as an error. -/
def waitForFirstPacket (request_id : Int) : List Packet → WaitFirst
  | [] => .blocked
  | f :: rest =>
    if request_id ≤ 0 then waitForFirstPacket request_id rest
    else if f.id ≠ request_id ∧ f.id ≠ -1 then waitForFirstPacket request_id rest
    else if f.packet_type ≠ TYPE_RESPONSE then .errored .UnexpectedPacket
    else .notified

/-- What one call of SingleConnection::exec sends and returns. -/
structure ExecTrace where
  sent : List Packet
  result : RecvOutcome
deriving DecidableEq

/-- SingleConnection::exec from src/connection.rs, over the arrival list
delivered to the receiver task: allocate original_id, send
EXEC(original_id, cmd) (which fails with CommandTooLong before any write
when cmd exceeds 1014 bytes), wait for the first correlated frame, then
allocate end_id and send the empty terminator EXEC(end_id, ""), and
return what the receiver hands back. When the first correlated frame
never arrives, exec stays suspended in wait_for_first_packet: only the
original command has been written. -/
def execModel (counter : Int) (cmd : List Nat) (arrivals : List Packet) : ExecTrace :=
  if cmd.length > 1014 then { sent := [], result := .err .CommandTooLong }
  else
    match waitForFirstPacket (nextCounter counter) arrivals with
    | .blocked => { sent := [⟨nextCounter counter, TYPE_EXEC, cmd⟩], result := .waiting }
    | .errored e => { sent := [⟨nextCounter counter, TYPE_EXEC, cmd⟩], result := .err e }
    | .notified =>
      { sent := [⟨nextCounter counter, TYPE_EXEC, cmd⟩,
                 ⟨nextCounter (nextCounter counter), TYPE_EXEC, []⟩],
        result := receiveResponse (nextCounter counter) (-1) [] arrivals }

/-! ## Correlation engine lemmas -/

lemma receiveResponse_cons (request_id end_id : Int) (result : List Nat) (f : Packet)
    (rest : List Packet) :
    receiveResponse request_id end_id result (f :: rest) =
      if request_id ≤ 0 then receiveResponse request_id end_id result rest
      else if f.id ≠ request_id ∧ f.id ≠ end_id then
        receiveResponse request_id end_id result rest
      else if f.packet_type ≠ TYPE_RESPONSE then .err .UnexpectedPacket
      else if f.id = (if end_id = -1 then nextCounter request_id else end_id) then .done result
      else receiveResponse request_id (if end_id = -1 then nextCounter request_id else end_id)
        (result ++ f.body) rest := rfl

lemma waitForFirstPacket_cons (request_id : Int) (f : Packet) (rest : List Packet) :
    waitForFirstPacket request_id (f :: rest) =
      if request_id ≤ 0 then waitForFirstPacket request_id rest
      else if f.id ≠ request_id ∧ f.id ≠ -1 then waitForFirstPacket request_id rest
      else if f.packet_type ≠ TYPE_RESPONSE then .errored .UnexpectedPacket
      else .notified := rfl

lemma nextCounter_pos (c : Int) (h : 0 ≤ c) : 0 < nextCounter c := by
  unfold nextCounter
  split <;> omega

lemma nextCounter_le_max (c : Int) (h : c ≤ 2147483647) : nextCounter c ≤ 2147483647 := by
  unfold nextCounter
  split <;> omega

lemma nextCounter_ne_self (c : Int) (h : 0 < c) : nextCounter c ≠ c := by
  unfold nextCounter
  split <;> omega

/-- Once end_id has been fixed at next_counter(original_id), a run of
correlated RESPONSE fragments followed by the terminator echo finishes
with the accumulated result. -/
lemma receiveResponse_run (oid : Int) (hoid : 0 < oid) :
    ∀ (bs : List (List Nat)) (acc : List Nat),
      receiveResponse oid (nextCounter oid) acc
          (bs.map (fun b => ⟨oid, TYPE_RESPONSE, b⟩) ++
            [⟨nextCounter oid, TYPE_RESPONSE, []⟩]) =
        .done (acc ++ bs.flatten) := by
  have heidpos : 0 < nextCounter oid := nextCounter_pos oid (le_of_lt hoid)
  have hne : nextCounter oid ≠ oid := nextCounter_ne_self oid hoid
  intro bs
  induction bs with
  | nil =>
    intro acc
    rw [List.map_nil, List.nil_append, receiveResponse_cons]
    rw [if_neg (by omega), if_neg (by simp), if_neg (by simp [TYPE_RESPONSE]),
        if_neg (by omega : ¬ nextCounter oid = -1), if_pos rfl]
    simp
  | cons b bs ih =>
    intro acc
    rw [List.map_cons, List.cons_append, receiveResponse_cons]
    rw [if_neg (by omega), if_neg (by simp), if_neg (by simp [TYPE_RESPONSE]),
        if_neg (by omega : ¬ nextCounter oid = -1), if_neg (Ne.symm hne)]
    rw [ih (acc ++ b)]
    simp

/-! ## Claim theorems: correlation engine -/

/-- C1 (amended): when the server delivers k at least 1 RESPONSE fragments
tagged with the original id followed by the terminator echo, exec returns
the fragment bodies concatenated in arrival order and writes exactly two
EXEC frames, the command with the original id and one empty frame with id
next_counter(original id); that terminator id is strictly higher than the
original except at the i32::MAX wrap, where it restarts at 1. -/
theorem exec_termination_protocol (counter : Int) (cmd : List Nat) (bodies : List (List Nat))
    (h0 : 0 ≤ counter) (h1 : counter ≤ 2147483647) (hcmd : cmd.length ≤ 1014)
    (hk : bodies ≠ []) :
    execModel counter cmd
        (bodies.map (fun b => ⟨nextCounter counter, TYPE_RESPONSE, b⟩) ++
          [⟨nextCounter (nextCounter counter), TYPE_RESPONSE, []⟩]) =
      { sent := [⟨nextCounter counter, TYPE_EXEC, cmd⟩,
                 ⟨nextCounter (nextCounter counter), TYPE_EXEC, []⟩],
        result := .done bodies.flatten } ∧
    (nextCounter counter ≠ 2147483647 →
      nextCounter counter < nextCounter (nextCounter counter)) := by
  obtain ⟨b, bs, rfl⟩ : ∃ b bs, bodies = b :: bs := by
    cases bodies with
    | nil => exact absurd rfl hk
    | cons b bs => exact ⟨b, bs, rfl⟩
  have hoid : 0 < nextCounter counter := nextCounter_pos counter h0
  constructor
  · unfold execModel
    rw [if_neg (by omega)]
    rw [List.map_cons, List.cons_append, waitForFirstPacket_cons]
    rw [if_neg (by omega), if_neg (by simp), if_neg (by simp [TYPE_RESPONSE])]
    rw [receiveResponse_cons]
    rw [if_neg (by omega), if_neg (by simp), if_neg (by simp [TYPE_RESPONSE]),
        if_pos rfl, if_neg (Ne.symm (nextCounter_ne_self _ hoid))]
    rw [receiveResponse_run _ hoid bs ([] ++ b)]
    simp
  · intro h
    unfold nextCounter
    unfold nextCounter at h
    split at h <;> simp_all

/-- C1 witness: the protocol evaluated with two fragments from a fresh
connection. -/
theorem exec_termination_protocol_witness :
    execModel 0 [99] ([[97], [98]].map (fun b => ⟨nextCounter 0, TYPE_RESPONSE, b⟩) ++
        [⟨nextCounter (nextCounter 0), TYPE_RESPONSE, []⟩]) =
      { sent := [⟨nextCounter 0, TYPE_EXEC, [99]⟩,
                 ⟨nextCounter (nextCounter 0), TYPE_EXEC, []⟩],
        result := .done [[97], [98]].flatten } ∧
    (nextCounter 0 ≠ 2147483647 → nextCounter 0 < nextCounter (nextCounter 0)) :=
  exec_termination_protocol 0 [99] [[97], [98]] (by decide) (by decide) (by decide) (by decide)

/-- C1 counterexample: with k = 0 fragments the terminator echo alone does
not pass the id filter (end_id is still -1), the first-packet rendezvous
never fires, exec never sends the terminator and never returns: the claim
with k = 0 fails on the code. The final conjunct shows the other amended
hedge is also forced: at the counter value 2147483646 the original id is
i32::MAX and the terminator id wraps to 1, which is not strictly higher. -/
theorem exec_termination_zero_fragments :
    (execModel 0 [99] [⟨nextCounter (nextCounter 0), TYPE_RESPONSE, []⟩]).result = .waiting ∧
    (execModel 0 [99] [⟨nextCounter (nextCounter 0), TYPE_RESPONSE, []⟩]).sent =
      [⟨nextCounter 0, TYPE_EXEC, [99]⟩] ∧
    ¬ ((execModel 0 [99] [⟨nextCounter (nextCounter 0), TYPE_RESPONSE, []⟩]).result =
          .done [] ∧
        (execModel 0 [99] [⟨nextCounter (nextCounter 0), TYPE_RESPONSE, []⟩]).sent.length = 2) ∧
    ¬ nextCounter 2147483646 < nextCounter (nextCounter 2147483646) := by
  decide

/-- C6: while an exec is outstanding (positive request id), a frame whose
id matches neither the original nor the terminator id is skipped without
error whatever its type, and a frame that does match with a type other
than RESPONSE makes the receiver fail with UnexpectedPacket. -/
theorem recv_skip_and_unexpected (request_id end_id : Int) (result : List Nat)
    (f : Packet) (rest : List Packet) (hpos : 0 < request_id) :
    ((f.id ≠ request_id ∧ f.id ≠ end_id) →
      receiveResponse request_id end_id result (f :: rest) =
        receiveResponse request_id end_id result rest) ∧
    ((f.id = request_id ∨ f.id = end_id) → f.packet_type ≠ TYPE_RESPONSE →
      receiveResponse request_id end_id result (f :: rest) = .err .UnexpectedPacket) := by
  constructor
  · intro hmm
    rw [receiveResponse_cons, if_neg (by omega), if_pos hmm]
  · intro hmatch hkind
    rw [receiveResponse_cons, if_neg (by omega), if_neg (by tauto), if_pos hkind]

/-- C6 witness: a stray frame with id 5 is skipped while waiting on
request 1, and an AUTH frame bearing the active id 1 is rejected. -/
theorem recv_skip_and_unexpected_witness :
    receiveResponse 1 (-1) [] [⟨5, TYPE_AUTH, []⟩] = receiveResponse 1 (-1) [] [] ∧
    receiveResponse 1 (-1) [] [⟨1, TYPE_AUTH, []⟩] = .err .UnexpectedPacket :=
  ⟨(recv_skip_and_unexpected 1 (-1) [] ⟨5, TYPE_AUTH, []⟩ [] (by decide)).1 (by decide),
   (recv_skip_and_unexpected 1 (-1) [] ⟨1, TYPE_AUTH, []⟩ [] (by decide)).2 (by decide)
     (by decide)⟩

/-! ## Reconnecting supervisor (src/reconnect.rs)

The tri-state status lives behind one mutex; every access to it in the
source is a single critical section, so the supervisor is modelled as a
state machine whose steps are those critical sections. Engines are
identified by a number so that installing or closing a particular freshly
opened connection is observable. -/

/-- The Status enum of src/reconnect.rs. connected carries the engine. -/
inductive Status where
  | connected (engine : Nat)
  | disconnected (reason : String)
  | stopped
deriving DecidableEq

deriving instance DecidableEq for Except

/-- What a call of ReconnectingConnection::exec produces: a returned
result, or a Rust panic (the unreachable! arm for Stopped). -/
inductive ExecOutcome where
  | ret (r : Except RconError String)
  | panicked
deriving DecidableEq

/-- One call of ReconnectingConnection::exec together with its effects on
the supervisor. -/
structure ExecStep where
  outcome : ExecOutcome
  status : Status
  spawnedReconnect : Bool
  ranInnerExec : Bool
deriving DecidableEq

/-- ReconnectingConnection::exec from src/reconnect.rs, given the result
the delegated inner exec would produce. Under the status mutex:
Disconnected returns BusyReconnecting with the stored reason, without
running the inner exec; Stopped hits the unreachable! arm and panics;
Connected runs the inner exec, and if that fails with an IO error,
start_reconnect stores Disconnected(to_string of the error), spawns the
reconnect task and returns BusyReconnecting with the same text, while
every other result is returned unchanged. -/
def reconnectingExec (st : Status) (delegated : Except RconError String) : ExecStep :=
  match st with
  | .disconnected msg =>
    { outcome := .ret (.error (.BusyReconnecting msg)), status := .disconnected msg,
      spawnedReconnect := false, ranInnerExec := false }
  | .stopped =>
    { outcome := .panicked, status := .stopped,
      spawnedReconnect := false, ranInnerExec := false }
  | .connected c =>
    match delegated with
    | .error (.io e) =>
      { outcome := .ret (.error (.BusyReconnecting (RconError.describe (.io e)))),
        status := .disconnected (RconError.describe (.io e)),
        spawnedReconnect := true, ranInnerExec := true }
    | r =>
      { outcome := .ret r, status := .connected c,
        spawnedReconnect := false, ranInnerExec := true }

/-- What reconnect_loop does when an open attempt succeeds, under the
status mutex. -/
structure InstallStep where
  status : Status
  closedEngines : List Nat
  installed : Bool
deriving DecidableEq

/-- The success arm of the select in reconnect_loop: with the mutex held,
a Stopped status makes the task close the fresh engine and return without
installing it; any other status is overwritten with Connected(fresh). -/
def reconnectInstall (st : Status) (fresh : Nat) : InstallStep :=
  match st with
  | .stopped => { status := .stopped, closedEngines := [fresh], installed := false }
  | _ => { status := .connected fresh, closedEngines := [], installed := true }

/-- The critical sections that can touch the supervisor status: an exec
call (with the result its delegated inner exec would produce), a
reconnect attempt resolving (successfully opened engine, or a failed
attempt that only backs off), and close, which swaps in Stopped. -/
inductive SupEvent where
  | execCall (delegated : Except RconError String)
  | reconnectSuccess (fresh : Nat)
  | reconnectFailure
  | closeCall
deriving DecidableEq

/-- Status transition of one critical section. A panic inside exec leaves
the status as it was. -/
def supStep (st : Status) (e : SupEvent) : Status :=
  match e with
  | .execCall d => (reconnectingExec st d).status
  | .reconnectSuccess fresh => (reconnectInstall st fresh).status
  | .reconnectFailure => st
  | .closeCall => .stopped

/-! ## Claim theorems: supervisor -/

/-- C3: an IO failure of the delegated exec sets the status to
Disconnected carrying the description of that error, spawns the reconnect
task and returns BusyReconnecting with the same description; while
Disconnected the call returns BusyReconnecting with the stored reason at
once, independently of the transport and without running the inner exec;
and a non-IO error from the delegated exec passes through unchanged with
no reconnection. -/
theorem exec_failure_promotion :
    (∀ (c : Nat) (e : IoError),
      reconnectingExec (.connected c) (.error (.io e)) =
        { outcome := .ret (.error (.BusyReconnecting (RconError.describe (.io e)))),
          status := .disconnected (RconError.describe (.io e)),
          spawnedReconnect := true, ranInnerExec := true }) ∧
    (∀ (msg : String) (d d' : Except RconError String),
      reconnectingExec (.disconnected msg) d =
        { outcome := .ret (.error (.BusyReconnecting msg)), status := .disconnected msg,
          spawnedReconnect := false, ranInnerExec := false } ∧
      reconnectingExec (.disconnected msg) d = reconnectingExec (.disconnected msg) d') ∧
    (∀ (c : Nat) (r : Except RconError String), (∀ e : IoError, r ≠ .error (.io e)) →
      reconnectingExec (.connected c) r =
        { outcome := .ret r, status := .connected c,
          spawnedReconnect := false, ranInnerExec := true }) := by
  refine ⟨fun c e => rfl, fun msg d d' => ⟨rfl, rfl⟩, fun c r hr => ?_⟩
  unfold reconnectingExec
  match r with
  | .ok s => rfl
  | .error (.AddressParse m) => rfl
  | .error (.io e) => exact absurd rfl (hr e)
  | .error .CommandTooLong => rfl
  | .error .UTFEncoding => rfl
  | .error .UnexpectedPacket => rfl
  | .error .PasswordIncorrect => rfl
  | .error (.BusyReconnecting s) => rfl

/-- C3 witness: the three behaviours at concrete values. -/
theorem exec_failure_promotion_witness :
    reconnectingExec (.connected 7) (.error (.io ⟨"ConnectionReset", "reset by peer"⟩)) =
      { outcome := .ret (.error (.BusyReconnecting
          (RconError.describe (.io ⟨"ConnectionReset", "reset by peer"⟩)))),
        status := .disconnected (RconError.describe (.io ⟨"ConnectionReset", "reset by peer"⟩)),
        spawnedReconnect := true, ranInnerExec := true } ∧
    (reconnectingExec (.disconnected "down") (.ok "a") =
      { outcome := .ret (.error (.BusyReconnecting "down")), status := .disconnected "down",
        spawnedReconnect := false, ranInnerExec := false } ∧
     reconnectingExec (.disconnected "down") (.ok "a") =
       reconnectingExec (.disconnected "down") (.error .CommandTooLong)) ∧
    reconnectingExec (.connected 7) (.error .UnexpectedPacket) =
      { outcome := .ret (.error .UnexpectedPacket), status := .connected 7,
        spawnedReconnect := false, ranInnerExec := true } :=
  ⟨exec_failure_promotion.1 7 ⟨"ConnectionReset", "reset by peer"⟩,
   exec_failure_promotion.2.1 "down" (.ok "a") (.error .CommandTooLong),
   exec_failure_promotion.2.2 7 (.error .UnexpectedPacket) (by intro e h; cases h)⟩

/-- C4: a reconnect task that finds the status already Stopped when it
acquires the mutex closes its freshly opened engine and does not install
it, and Stopped is absorbing: no sequence of exec calls, reconnect
resolutions or close calls moves the status away from Stopped. -/
theorem stopped_is_terminal :
    (∀ fresh : Nat, reconnectInstall .stopped fresh =
      { status := .stopped, closedEngines := [fresh], installed := false }) ∧
    (∀ evs : List SupEvent, List.foldl supStep Status.stopped evs = .stopped) := by
  have hstep : ∀ e : SupEvent, supStep .stopped e = .stopped := by
    intro e
    cases e <;> rfl
  refine ⟨fun fresh => rfl, fun evs => ?_⟩
  induction evs with
  | nil => rfl
  | cons e rest ih => rw [List.foldl_cons, hstep e, ih]

/-- C5 counterexample: an exec that observes Stopped panics in the
unreachable! arm; it does not return a value, in particular not an
IO-class connection-closed error. -/
theorem exec_stopped_not_error :
    (reconnectingExec .stopped (.ok "x")).outcome = .panicked ∧
    (reconnectingExec .stopped (.ok "x")).outcome ≠
      .ret (.error (.io ⟨"ConnectionClosed", "connection closed"⟩)) := by
  exact ⟨rfl, by decide⟩

/-- C5 (amended): the Stopped arm of exec is written as unreachable!
(close consumes the connection, so no exec can follow it); were the
status ever Stopped during exec, the call would panic rather than return
an error, leaving the status untouched and spawning nothing. -/
theorem exec_stopped_panics (d : Except RconError String) :
    reconnectingExec .stopped d =
      { outcome := .panicked, status := .stopped,
        spawnedReconnect := false, ranInnerExec := false } := rfl

/-! ## Connection establishment (try_connect, src/connection.rs) -/

/-- A resolved socket address: IPv4 or IPv6, with a number standing for
the concrete endpoint. -/
inductive Addr where
  | v4 (a : Nat)
  | v6 (a : Nat)
deriving DecidableEq

/-- The sort key of try_connect: V4 maps to 0, V6 to 1. -/
def addrKey : Addr → Nat
  | .v4 _ => 0
  | .v6 _ => 1

def Addr.isV4 : Addr → Bool
  | .v4 _ => true
  | .v6 _ => false

/-- Insertion of an address into an already sorted list, placing it after
every element of smaller or equal key: combined with sortByKey below this
is a stable sort, which is what Vec::sort_by_key guarantees. -/
def insertByKey (a : Addr) : List Addr → List Addr
  | [] => [a]
  | b :: bs => if addrKey a ≤ addrKey b then a :: b :: bs else b :: insertByKey a bs

/-- addrs.sort_by_key from try_connect, as a stable insertion sort. -/
def sortByKey : List Addr → List Addr
  | [] => []
  | a :: as => insertByKey a (sortByKey as)

/-- Outcome of one timed connection attempt: Ok(Ok(stream)),
Ok(Err(e)), or Err(elapsed) from the timeout wrapper. -/
inductive ConnAttempt where
  | success
  | connError (e : IoError)
  | timedOut
deriving DecidableEq

/-- The candidate loop of try_connect with its stored last error: a
successful attempt returns its stream (identified by the address), a
connection error replaces the stored error, a timeout stores nothing;
when the candidates are exhausted the stored error is returned, and in
its absence the AddrNotAvailable fallback. -/
def tryConnectLoop (outcome : Addr → ConnAttempt) :
    List Addr → Option IoError → Except RconError Addr
  | [], err => .error (.io (err.getD ⟨"AddrNotAvailable", "Could not resolve rcon host addr"⟩))
  | a :: rest, err =>
    match outcome a with
    | .success => .ok a
    | .connError e => tryConnectLoop outcome rest (some e)
    | .timedOut => tryConnectLoop outcome rest err

/-- try_connect from src/connection.rs: resolve (the candidate list and
the outcome of each attempt are the inputs of the model), sort IPv4
first, then run the candidate loop with no stored error. -/
def tryConnect (outcome : Addr → ConnAttempt) (addrs : List Addr) : Except RconError Addr :=
  tryConnectLoop outcome (sortByKey addrs) none

/-- The error held in the loop variable after a full pass over l: the
connection error of the last candidate that failed with one (timeouts
store nothing). -/
def lastConnError (outcome : Addr → ConnAttempt) : List Addr → Option IoError
  | [] => none
  | a :: rest =>
    match lastConnError outcome rest with
    | some e => some e
    | none => match outcome a with | .connError e => some e | _ => none

/-! ## try_connect lemmas -/

lemma addrKey_of_isV4 (b : Addr) (h : Addr.isV4 b = true) : addrKey b = 0 := by
  cases b with
  | v4 a => rfl
  | v6 a => simp [Addr.isV4] at h

lemma addrKey_of_not_isV4 (b : Addr) (h : Addr.isV4 b = false) : addrKey b = 1 := by
  cases b with
  | v4 a => simp [Addr.isV4] at h
  | v6 a => rfl

lemma insertByKey_key_zero (a : Addr) (h : addrKey a = 0) (l : List Addr) :
    insertByKey a l = a :: l := by
  cases l with
  | nil => rfl
  | cons b bs =>
    unfold insertByKey
    rw [if_pos (by rw [h]; exact Nat.zero_le _)]

lemma insertByKey_key_one (a : Addr) (h : addrKey a = 1) :
    ∀ l0 l1 : List Addr, (∀ b ∈ l0, addrKey b = 0) → (∀ b ∈ l1, addrKey b = 1) →
      insertByKey a (l0 ++ l1) = l0 ++ (a :: l1) := by
  intro l0
  induction l0 with
  | nil =>
    intro l1 h0 h1
    cases l1 with
    | nil => rfl
    | cons b bs =>
      rw [List.nil_append, List.nil_append]
      unfold insertByKey
      rw [if_pos (by rw [h, h1 b (by simp)])]
  | cons c cs ih =>
    intro l1 h0 h1
    rw [List.cons_append, List.cons_append]
    unfold insertByKey
    rw [if_neg (by rw [h, h0 c (by simp)]; omega)]
    rw [ih l1 (fun b hb => h0 b (by simp [hb])) h1]

/-- A stable sort on the binary V4-before-V6 key is exactly the stable
partition: all IPv4 candidates in original order, then all IPv6
candidates in original order. -/
lemma sortByKey_partition (l : List Addr) :
    sortByKey l = l.filter Addr.isV4 ++ l.filter (fun x => !Addr.isV4 x) := by
  induction l with
  | nil => rfl
  | cons a as ih =>
    show insertByKey a (sortByKey as) = _
    rw [ih]
    cases ha : Addr.isV4 a with
    | true =>
      rw [insertByKey_key_zero a (addrKey_of_isV4 a ha)]
      simp [List.filter_cons, ha]
    | false =>
      rw [insertByKey_key_one a (addrKey_of_not_isV4 a ha)
            (as.filter Addr.isV4) (as.filter (fun x => !Addr.isV4 x))
            (fun b hb => addrKey_of_isV4 b (List.of_mem_filter hb))
            (fun b hb => addrKey_of_not_isV4 b (by simpa using List.of_mem_filter hb))]
      simp [List.filter_cons, ha]

lemma mem_of_mem_sortByKey (b : Addr) (l : List Addr) (h : b ∈ sortByKey l) : b ∈ l := by
  rw [sortByKey_partition] at h
  rcases List.mem_append.mp h with h | h <;> exact List.mem_of_mem_filter h

lemma tryConnectLoop_cons (outcome : Addr → ConnAttempt) (a : Addr) (rest : List Addr)
    (err : Option IoError) :
    tryConnectLoop outcome (a :: rest) err =
      match outcome a with
      | .success => .ok a
      | .connError e => tryConnectLoop outcome rest (some e)
      | .timedOut => tryConnectLoop outcome rest err := rfl

lemma lastConnError_cons (outcome : Addr → ConnAttempt) (a : Addr) (rest : List Addr) :
    lastConnError outcome (a :: rest) =
      match lastConnError outcome rest with
      | some e => some e
      | none => match outcome a with | .connError e => some e | _ => none := rfl

lemma tryConnectLoop_first_success (outcome : Addr → ConnAttempt) (a : Addr)
    (ha : outcome a = .success) :
    ∀ (pre post : List Addr) (err : Option IoError),
      (∀ b ∈ pre, outcome b ≠ .success) →
      tryConnectLoop outcome (pre ++ a :: post) err = .ok a := by
  intro pre
  induction pre with
  | nil =>
    intro post err hpre
    rw [List.nil_append, tryConnectLoop_cons, ha]
  | cons c cs ih =>
    intro post err hpre
    rw [List.cons_append]
    cases hC : outcome c with
    | success => exact absurd hC (hpre c (by simp))
    | connError e =>
      simp only [tryConnectLoop_cons, hC]
      exact ih post (some e) (fun b hb => hpre b (by simp [hb]))
    | timedOut =>
      simp only [tryConnectLoop_cons, hC]
      exact ih post err (fun b hb => hpre b (by simp [hb]))

lemma tryConnectLoop_no_success (outcome : Addr → ConnAttempt) :
    ∀ (l : List Addr) (err : Option IoError), (∀ b ∈ l, outcome b ≠ .success) →
      tryConnectLoop outcome l err =
        .error (.io ((lastConnError outcome l).getD
          (err.getD ⟨"AddrNotAvailable", "Could not resolve rcon host addr"⟩))) := by
  intro l
  induction l with
  | nil =>
    intro err h
    rfl
  | cons a rest ih =>
    intro err h
    cases hA : outcome a with
    | success => exact absurd hA (h a (by simp))
    | connError e =>
      simp only [tryConnectLoop_cons, lastConnError_cons, hA]
      rw [ih (some e) (fun b hb => h b (by simp [hb]))]
      cases hrec : lastConnError outcome rest <;> simp [hrec]
    | timedOut =>
      simp only [tryConnectLoop_cons, lastConnError_cons, hA]
      rw [ih err (fun b hb => h b (by simp [hb]))]
      cases hrec : lastConnError outcome rest <;> simp [hrec]

/-! ## Claim theorems: connection establishment -/

/-- C7 (amended): the attempt order is all IPv4 candidates in resolution
order followed by all IPv6 candidates in resolution order; the first
successful attempt wins; when no attempt succeeds the result is the last
connection error, and when no attempt produced a connection error (no
candidates at all, or every attempt timed out) it is the AddrNotAvailable
fallback. -/
theorem try_connect_behaviour (outcome : Addr → ConnAttempt) :
    (∀ addrs : List Addr, sortByKey addrs =
      addrs.filter Addr.isV4 ++ addrs.filter (fun x => !Addr.isV4 x)) ∧
    (∀ (pre post : List Addr) (a : Addr) (err : Option IoError),
      (∀ b ∈ pre, outcome b ≠ .success) → outcome a = .success →
      tryConnectLoop outcome (pre ++ a :: post) err = .ok a) ∧
    (∀ addrs : List Addr, (∀ b ∈ addrs, outcome b ≠ .success) →
      tryConnect outcome addrs =
        .error (.io ((lastConnError outcome (sortByKey addrs)).getD
          ⟨"AddrNotAvailable", "Could not resolve rcon host addr"⟩))) := by
  refine ⟨sortByKey_partition, fun pre post a err hpre ha =>
    tryConnectLoop_first_success outcome a ha pre post err hpre, fun addrs h => ?_⟩
  unfold tryConnect
  rw [tryConnectLoop_no_success outcome (sortByKey addrs)
        none (fun b hb => h b (mem_of_mem_sortByKey b addrs hb))]
  rfl

/-- C7 witness: ordering, first success and the no-success fallback at
concrete inputs. -/
theorem try_connect_behaviour_witness :
    sortByKey [Addr.v6 9, Addr.v4 1] =
      [Addr.v6 9, Addr.v4 1].filter Addr.isV4 ++
        [Addr.v6 9, Addr.v4 1].filter (fun x => !Addr.isV4 x) ∧
    tryConnectLoop (fun a => match a with
        | .v4 _ => ConnAttempt.timedOut
        | .v6 _ => ConnAttempt.success) ([Addr.v4 1] ++ Addr.v6 9 :: []) none =
      .ok (Addr.v6 9) ∧
    tryConnect (fun _ => ConnAttempt.timedOut) [Addr.v4 1] =
      .error (.io ((lastConnError (fun _ => ConnAttempt.timedOut)
          (sortByKey [Addr.v4 1])).getD
        ⟨"AddrNotAvailable", "Could not resolve rcon host addr"⟩)) :=
  ⟨(try_connect_behaviour (fun _ => ConnAttempt.timedOut)).1 [Addr.v6 9, Addr.v4 1],
   (try_connect_behaviour (fun a => match a with
        | .v4 _ => ConnAttempt.timedOut
        | .v6 _ => ConnAttempt.success)).2.1 [Addr.v4 1] [] (Addr.v6 9) none
     (by intro b hb; rw [List.mem_singleton] at hb; subst hb; decide) rfl,
   (try_connect_behaviour (fun _ => ConnAttempt.timedOut)).2.2 [Addr.v4 1]
     (by intro b hb; decide)⟩

/-- C7 counterexample: with one resolved candidate whose attempt times
out, no connection error ever exists, yet try_connect returns the
AddrNotAvailable fallback even though resolution yielded a candidate:
the case split of the claim (last connection error, or address
unavailable only when resolution yielded no candidates) does not hold as
stated. -/
theorem try_connect_all_timeout :
    tryConnect (fun _ => ConnAttempt.timedOut) [Addr.v4 1] =
      .error (.io ⟨"AddrNotAvailable", "Could not resolve rcon host addr"⟩) ∧
    ([Addr.v4 1] : List Addr) ≠ [] ∧
    lastConnError (fun _ => ConnAttempt.timedOut) [Addr.v4 1] = none := by
  exact ⟨rfl, by simp, rfl⟩

end Rercon
